import Mathlib

/-!
Verification of the event-loop and cross-thread coordination core of the
walk Win32 GUI toolkit (package `walk`, file `application.go` and `form.go`).

The Go code is shallowly embedded: the mutable fields of the `Application`
singleton that each operation touches become fields of small state
structures, and each Go method becomes a pure Lean function from state to
state (plus, where useful, a trace of the externally observable events the
method performs).  Panics are modelled with `Except`, goroutine identity and
blocking with explicit outcome constructors.  Callback values (the `func()`
closures stored in `syncFuncs`, layout completion functions, handler
objects) are identified by natural-number ids; executing a callback is
recorded as an event carrying its id.
-/

namespace Walk

/-! ### Cross-thread synchronization bridge: `Application.Synchronize` and
`Application.runSyncFunc` (application.go).

`Application.Synchronize` appends `fn` to `app.syncFuncs` under
`app.syncFuncsMutex` and posts one `syncFuncMsg` message to the hidden
message window.  `appMsgWndProc` invokes `runSyncFunc` once per observed
`syncFuncMsg`; `runSyncFunc` pops the front element of `syncFuncs` (if any)
under the mutex and then calls it.  Queued functions are identified by ids;
`executed` records the ids already run by the UI thread, in execution
order. -/

structure SyncState where
  /-- `app.syncFuncs`: the pending queue, front at the head. -/
  syncFuncs : List Nat
  /-- Number of `syncFuncMsg` messages posted via `win.PostMessage` and not
  yet observed by the message loop. -/
  postedSyncMsgs : Nat
  /-- Ids of the functions the UI thread has already run, in order. -/
  executed : List Nat
  deriving Repr, DecidableEq

/-- `Application.Synchronize` (application.go): append `fn` to the
queue under the mutex, then post one `syncFuncMsg`. -/
def Synchronize (s : SyncState) (fn : Nat) : SyncState :=
  { s with
    syncFuncs := s.syncFuncs ++ [fn]
    postedSyncMsgs := s.postedSyncMsgs + 1 }

/-- `Application.runSyncFunc` (application.go), run by `appMsgWndProc` once
per observed `syncFuncMsg`: pop the front of the queue under the mutex (if
the queue is nonempty), then call the popped function. -/
def runSyncFunc (s : SyncState) : SyncState :=
  match s.syncFuncs with
  | [] => { s with postedSyncMsgs := s.postedSyncMsgs - 1 }
  | fn :: rest =>
      { s with
        syncFuncs := rest
        postedSyncMsgs := s.postedSyncMsgs - 1
        executed := s.executed ++ [fn] }

/-- The state before any `Synchronize` call: empty queue, nothing posted,
nothing executed. -/
def initSyncState : SyncState := ⟨[], 0, []⟩

theorem foldl_Synchronize (fns : List Nat) (q : List Nat) (p : Nat)
    (ex : List Nat) :
    fns.foldl Synchronize ⟨q, p, ex⟩ =
      ⟨q ++ fns, p + fns.length, ex⟩ := by
  induction fns generalizing q p with
  | nil => simp
  | cons a t ih =>
      have h2 : p + 1 + t.length = p + (t.length + 1) := by omega
      simp only [List.foldl_cons, Synchronize, ih, List.append_assoc,
        List.singleton_append, List.length_cons, h2]

theorem iterate_runSyncFunc (k : Nat) (q : List Nat) (p : Nat)
    (ex : List Nat) (hk : k ≤ q.length) :
    runSyncFunc^[k] ⟨q, p, ex⟩ = ⟨q.drop k, p - k, ex ++ q.take k⟩ := by
  induction k generalizing q p ex with
  | zero => simp
  | succ n ih =>
      match q with
      | [] => simp at hk
      | a :: t =>
          rw [Function.iterate_succ_apply]
          have h1 : runSyncFunc ⟨a :: t, p, ex⟩ = ⟨t, p - 1, ex ++ [a]⟩ := rfl
          have h2 : p - 1 - n = p - (n + 1) := by omega
          rw [h1, ih t (p - 1) (ex ++ [a]) (by simpa using hk), h2]
          simp [List.append_assoc]

/-- C1: every function enqueued by `Synchronize` is executed exactly once,
on the UI thread (the thread draining `syncFuncMsg` messages), in FIFO
order: after the UI thread has observed `k` of the posted `syncFuncMsg`
messages, exactly the first `k` submitted functions have run, in submission
order, and the rest are still queued.  In particular each observed message
pops and executes exactly one item, the front of the queue, and draining
all `fns.length` messages runs every function exactly once. -/
theorem synchronize_fifo_exactly_once (fns : List Nat) (k : Nat)
    (hk : k ≤ fns.length) :
    (runSyncFunc^[k] (fns.foldl Synchronize initSyncState)).executed =
        fns.take k ∧
      (runSyncFunc^[k] (fns.foldl Synchronize initSyncState)).syncFuncs =
        fns.drop k := by
  have h0 := foldl_Synchronize fns ([]) 0 ([])
  simp only [List.nil_append, Nat.zero_add] at h0
  rw [show initSyncState = (⟨[], 0, []⟩ : SyncState) from rfl, h0,
    iterate_runSyncFunc k fns fns.length ([]) hk]
  exact ⟨by simp, rfl⟩

/-- Witness for C1 at a concrete input: submit functions 10, 20, 30 and
observe two sync messages; exactly 10 and 20 have run, in order, and 30 is
still queued. -/
theorem synchronize_fifo_exactly_once_witness :
    (runSyncFunc^[2] ([10, 20, 30].foldl Synchronize
        initSyncState)).executed = [10, 20] ∧
      (runSyncFunc^[2] ([10, 20, 30].foldl Synchronize
        initSyncState)).syncFuncs = [30] :=
  synchronize_fifo_exactly_once [10, 20, 30] 2 (by decide)

/-! ### `Application.Exit` (application.go).

`Exit` performs `app.exiting.CompareAndSwap(false, true)`; on failure it
returns immediately.  The winning call cancels the shared context via
`app.ctxCancel()` and then posts `WM_QUIT` with its exit code: directly via
`win.PostQuitMessage` when on the UI thread, otherwise by enqueuing the
posting closure through `app.Synchronize`.  `directQuitPosts` records exit
codes posted directly, `syncQuitPosts` those routed through `Synchronize`. -/

structure ExitCall where
  exitCode : Int
  isUIThread : Bool
  deriving Repr, DecidableEq

structure ExitState where
  /-- `app.exiting : atomic.Bool`. -/
  exiting : Bool
  /-- How many times `app.ctxCancel()` has been invoked. -/
  ctxCancelCount : Nat
  /-- Exit codes passed to `win.PostQuitMessage` directly (UI-thread caller). -/
  directQuitPosts : List Int
  /-- Exit codes whose `PostQuitMessage` closure was enqueued via
  `Synchronize` (non-UI-thread caller). -/
  syncQuitPosts : List Int
  deriving Repr, DecidableEq

/-- `Application.Exit` (application.go). -/
def appExit (s : ExitState) (c : ExitCall) : ExitState :=
  if s.exiting then s
  else
    let s1 : ExitState :=
      { s with
        exiting := true
        ctxCancelCount := s.ctxCancelCount + 1 }
    if c.isUIThread then
      { s1 with directQuitPosts := s1.directQuitPosts ++ [c.exitCode] }
    else
      { s1 with syncQuitPosts := s1.syncQuitPosts ++ [c.exitCode] }

/-- The state before any `Exit` call. -/
def initExitState : ExitState := ⟨false, 0, [], []⟩

theorem appExit_of_exiting (s : ExitState) (c : ExitCall)
    (h : s.exiting = true) : appExit s c = s := by
  simp [appExit, h]

theorem foldl_appExit_of_exiting (calls : List ExitCall) (s : ExitState)
    (h : s.exiting = true) : calls.foldl appExit s = s := by
  induction calls with
  | nil => rfl
  | cons c t ih => rw [List.foldl_cons, appExit_of_exiting s c h, ih]

/-- C7: `Exit` is idempotent.  For any nonempty sequence of calls
(`first :: rest`, so any N ≥ 1 and in particular every N > 1), the shared
context is cancelled exactly once and exactly one quit signal is posted,
carrying the first call's exit code; every later call is a no-op; and the
quit posting is routed through `Synchronize` exactly when the first caller
is not the UI thread, and posted directly otherwise. -/
theorem exit_idempotent (first : ExitCall) (rest : List ExitCall) :
    (rest.foldl appExit (appExit initExitState first)).ctxCancelCount = 1 ∧
      (rest.foldl appExit (appExit initExitState first)).directQuitPosts =
        (if first.isUIThread then [first.exitCode] else []) ∧
      (rest.foldl appExit (appExit initExitState first)).syncQuitPosts =
        (if first.isUIThread then [] else [first.exitCode]) ∧
      rest.foldl appExit (appExit initExitState first) =
        appExit initExitState first := by
  have hfirst : (appExit initExitState first).exiting = true := by
    by_cases h : first.isUIThread <;> simp [appExit, initExitState, h]
  rw [foldl_appExit_of_exiting rest _ hfirst]
  by_cases h : first.isUIThread <;>
    simp [appExit, initExitState, h]

/-! ### `onceWithPreInit`, `App`, `InitApp` (application.go).

`onceWithPreInit.initSlow` takes the mutex and, when the `init` flag is
still 0, runs `defer atomic.StoreUint32(&o.init, 1)` and then `f()`:
the flag is therefore set to 1 when `f` returns *and* when `f` panics,
because the deferred store runs during panic propagation.  `App` calls
`appOnce.Init` with a function that panics; `InitApp` calls `appOnce.Init`
with a function that runs `appSingleton.init()` and captures its error in
`err` (which stays nil when the function is never run). -/

structure AppOnceState where
  /-- `appOnce.init : uint32`, as a flag. -/
  initFlag : Bool
  /-- Whether `appSingleton.init()` has run to completion successfully. -/
  appInited : Bool
  deriving Repr, DecidableEq

/-- `onceWithPreInit.Init` / `initSlow` (application.go): when the flag is
set, `f` is not run; otherwise `f` runs and the flag is stored via `defer`,
hence set both on normal return and on panic of `f`. -/
def onceInit (s : AppOnceState)
    (f : AppOnceState → Except (String × AppOnceState) AppOnceState) :
    Except (String × AppOnceState) AppOnceState :=
  if s.initFlag then .ok s
  else
    match f s with
    | .ok s1 => .ok { s1 with initFlag := true }
    | .error (e, s1) => .error (e, { s1 with initFlag := true })

/-- `App` (application.go): `appOnce.Init(func() { panic("walk.InitApp must
be called first") })`, then return the singleton.  An `.error` outcome is a
panic escaping `App`; the state it carries is the global state after the
panic has propagated. -/
def appAccessor (s : AppOnceState) :
    Except (String × AppOnceState) AppOnceState :=
  onceInit s (fun s0 => .error ("walk.InitApp must be called first", s0))

/-- `InitApp` (application.go): `appOnce.Init(func() {
finalInitOutsideOnce, err = appSingleton.init() })`; when the once-guard is
already initialized the function is not run, `err` stays nil and
`finalInitOutsideOnce` stays nil, so InitApp returns the singleton with a
nil error.  `initErr` is the error `appSingleton.init()` would report if it
were run; the returned `Option String` is InitApp's `err` result. -/
def initApp (s : AppOnceState) (initErr : Option String) :
    AppOnceState × Option String :=
  match onceInit s (fun s0 =>
      match initErr with
      | none => .ok { s0 with appInited := true }
      | some e => .error (e, s0)) with
  | .ok s1 => (s1, none)
  | .error (e, s1) => (s1, some e)

/-- C10: calling `App()` before `InitApp` panics with "walk.InitApp must be
called first", yet the deferred store in `initSlow` marks the once-guard
initialized anyway; a subsequent `InitApp` call therefore performs no
initialization at all (`appInited` stays false, regardless of whether the
real initialization would have succeeded or failed) and returns a nil
error. -/
theorem app_before_initApp_poisons_once_guard :
    appAccessor ⟨false, false⟩ =
        .error ("walk.InitApp must be called first", ⟨true, false⟩) ∧
      ∀ initErr : Option String,
        initApp ⟨true, false⟩ initErr = (⟨true, false⟩, none) :=
  ⟨rfl, fun _ => rfl⟩

/-! ### `Application.RunModal` (application.go).

`RunModal` asserts the UI thread, increments `app.activeMessageLoops` and
defers its decrement, defers `modal.Dispose()`, optionally disables the
owner window, calls `modal.EnterMode()` and then runs the modal message
loop: while `modal.Running()`, pop a message (returning on `WM_QUIT`),
offer it to filters and `modal.OnPreTranslate`, translate/dispatch it (any
of which may panic), or wait when none is pending.  Go defers run in LIFO
order on every exit path, normal return and panic propagation alike, so
`Dispose` runs first and then the depth decrement.

The loop's control flow is embedded as a list of iteration outcomes:
`iters = []` means `modal.Running()` became false (normal termination);
`itQuit` is observing `WM_QUIT`; `itFault e` is a panic with value `e`
raised while handling the message; the other constructors are iterations
that keep looping. -/

inductive ModalIter where
  /-- A message was popped, handled by a filter or `OnPreTranslate`
  (`continue`), or dispatched normally, or no message was pending and the
  loop waited; the loop continues. -/
  | itStep
  /-- The popped message was `WM_QUIT`: `return`. -/
  | itQuit
  /-- Handling the popped message panicked with value `e`. -/
  | itFault (e : Nat)
  deriving Repr, DecidableEq

structure ModalState where
  /-- `app.activeMessageLoops : int`. -/
  activeMessageLoops : Int
  /-- How many times `modal.Dispose()` has run. -/
  disposeCount : Nat
  /-- Whether `modal.EnterMode()` has run. -/
  enteredMode : Bool
  deriving Repr, DecidableEq

/-- The modal message loop of `RunModal` (application.go): runs until
`modal.Running()` is false (end of `iters`), `WM_QUIT` is popped, or a
fault propagates. -/
def modalLoop : List ModalIter → Except Nat Unit
  | [] => .ok ()
  | .itStep :: rest => modalLoop rest
  | .itQuit :: _ => .ok ()
  | .itFault e :: _ => .error e

/-- The deferred cleanups of `RunModal`, in LIFO order: `modal.Dispose()`,
then the `activeMessageLoops` decrement.  Go runs them on normal return and
during panic propagation alike. -/
def runModalDefers (s : ModalState) : ModalState :=
  { s with
    disposeCount := s.disposeCount + 1
    activeMessageLoops := s.activeMessageLoops - 1 }

/-- `Application.RunModal` (application.go).  An `.ok` outcome is a normal
return; an `.error` outcome is a panic propagating out of `RunModal`,
carrying the panic value and the state after the deferred cleanups ran. -/
def RunModal (s : ModalState) (iters : List ModalIter) :
    Except (Nat × ModalState) ModalState :=
  let s1 : ModalState :=
    { s with
      activeMessageLoops := s.activeMessageLoops + 1
      enteredMode := true }
  match modalLoop iters with
  | .ok () => .ok (runModalDefers s1)
  | .error e => .error (e, runModalDefers s1)

/-- The state `RunModal` leaves behind, on either kind of exit. -/
def runModalFinalState : Except (Nat × ModalState) ModalState → ModalState
  | .ok s => s
  | .error (_, s) => s

/-- C5: for any modal entered while `activeMessageLoops = k`, on every exit
path — normal termination of the modal's `Running` predicate or quit-signal
exit (both `.ok`), or fault propagation (`.error`) — the nesting depth is
restored to `k` and the modal has been disposed exactly once. -/
theorem runModal_restores_depth_disposes_once (s : ModalState)
    (iters : List ModalIter) :
    (runModalFinalState (RunModal s iters)).activeMessageLoops =
        s.activeMessageLoops ∧
      (runModalFinalState (RunModal s iters)).disposeCount =
        s.disposeCount + 1 := by
  unfold RunModal
  cases h : modalLoop iters with
  | ok u =>
      cases u
      simp [runModalFinalState, runModalDefers]
  | error e => simp [runModalFinalState, runModalDefers]

/-! ### `Application.HandlePanicFromNativeCallback` and
`redirectedPanicError` (application.go).

The method is deferred at every native-to-Go callback boundary.  When the
wrapped call returns normally, `recover()` yields nil and the method does
nothing.  When the wrapped call panics, `recover()` yields the panic value
`x`; the method builds `redirectedPanicError{inner: x, stack:
debug.Stack()}` (the stack snapshot of the panicking goroutine, since we
are inside a recover), re-raises it on a newly spawned goroutine via `go
panic(e)`, and then executes `select {}`, blocking the original
(native-owned) goroutine forever so it never returns through the native
frames. -/

/-- `redirectedPanicError` (application.go): the recovered panic value and
the captured stack snapshot. -/
structure RedirectedPanicError where
  inner : Nat
  stack : List Nat
  deriving Repr, DecidableEq

/-- The outcome of the wrapped Go call that the native code invoked: it
either returns a value normally or panics with a value. -/
inductive GoCallOutcome (α : Type) where
  | normal (a : α)
  | panicked (v : Nat)
  deriving Repr, DecidableEq

/-- What the native caller observes past the deferred boundary. -/
inductive BoundaryOutcome (α : Type) where
  /-- The wrapped call returned normally; the boundary was a no-op and the
  value flows back into the native frames. -/
  | returns (a : α)
  /-- The wrapped call panicked: the boundary re-raised `reraised` on a
  newly spawned goroutine and the original native-owned goroutine is
  blocked forever in `select {}`. -/
  | blockedForever (reraised : RedirectedPanicError)
  deriving Repr, DecidableEq

/-- A native-to-Go callback entry with
`defer app.HandlePanicFromNativeCallback()` (application.go):
`stackSnapshot` is what `debug.Stack()` reports inside the recover, i.e.
the panicking stack. -/
def handlePanicFromNativeCallback {α : Type} (stackSnapshot : List Nat) :
    GoCallOutcome α → BoundaryOutcome α
  | .normal a => .returns a
  | .panicked v => .blockedForever ⟨v, stackSnapshot⟩

/-- C6: the boundary is a no-op when the wrapped call returns normally;
when the wrapped call panics it captures the panic value together with the
panicking stack snapshot, re-raises exactly that fault on a new goroutine,
and the original native-owned goroutine blocks forever — it never returns
any value through the native frames. -/
theorem handlePanic_noop_or_block {α : Type} :
    (∀ (stackSnapshot : List Nat) (a : α),
        handlePanicFromNativeCallback stackSnapshot (.normal a) =
          .returns a) ∧
      (∀ (stackSnapshot : List Nat) (v : Nat),
        handlePanicFromNativeCallback (α := α) stackSnapshot (.panicked v) =
            .blockedForever ⟨v, stackSnapshot⟩ ∧
          ∀ a : α, handlePanicFromNativeCallback (α := α) stackSnapshot
            (.panicked v) ≠ .returns a) :=
  ⟨fun _ _ => rfl, fun _ _ => ⟨rfl, fun _ h => by cases h⟩⟩

/-! ### The main message loop and the pre-translate hook chain:
`Application.Run`, `runMainMessageLoop`, `runPreTranslateHandler`,
`runPostDispatchHandler` (application.go).

A `win.MSG` is reduced to its destination `HWnd` and message code.
Handlers (the `PreTranslateHandler` interface) are pure predicates on
messages tagged with an id; the trace of a run records the ids of the
handlers whose `OnPreTranslate` was invoked, in invocation order.
`perWindowPreTranslateHandlers` is a Go map `map[win.HWND]
PreTranslateHandler`; it is embedded as an association list whose order
stands for Go's (unspecified) map iteration order.  `windows` embeds
`windowFromHandle`: the destination window of a message, carrying the
`PreTranslateHandler` it implements (if it implements the interface) and
whether it implements `PostDispatchHandler`. -/

structure Msg where
  hwnd : Nat
  message : Nat
  deriving Repr, DecidableEq

structure Handler where
  id : Nat
  onPreTranslate : Msg → Bool

structure WindowModel where
  pre : Option Handler
  hasPostDispatch : Bool

structure MsgLoopApp where
  globalPreTranslateHandlers : List Handler
  perWindowPreTranslateHandlers : List (Nat × Handler)
  windows : List (Nat × WindowModel)
  activeMessageLoops : Int

/-- Run a list of handlers in order on `m`, stopping at the first one that
returns true (`handled`); also return the ids of the handlers invoked. -/
def runHandlerChain : List Handler → Msg → Bool × List Nat
  | [], _ => (false, [])
  | h :: t, m =>
      if h.onPreTranslate m then (true, [h.id])
      else
        let r := runHandlerChain t m
        (r.1, h.id :: r.2)

/-- `getMsgWindow` (application.go): `windowFromHandle(msg.HWnd)`. -/
def getMsgWindow (app : MsgLoopApp) (m : Msg) : Option WindowModel :=
  app.windows.lookup m.hwnd

/-- The `PreTranslateHandler` implemented by the destination window of `m`,
if the window exists and implements the interface. -/
def destPreHandler (app : MsgLoopApp) (m : Msg) : Option Handler :=
  (getMsgWindow app m).bind WindowModel.pre

/-- `Application.runPreTranslateHandler` (application.go): first the global
handlers in registration order, then every handler in the per-window map,
then — if the destination window exists and implements
`PreTranslateHandler` — that window's own handler; each loop returns true
as soon as a handler returns true. -/
def runPreTranslateHandler (app : MsgLoopApp) (m : Msg) : Bool × List Nat :=
  let g := runHandlerChain app.globalPreTranslateHandlers m
  if g.1 then g
  else
    let w :=
      runHandlerChain (app.perWindowPreTranslateHandlers.map Prod.snd) m
    if w.1 then (true, g.2 ++ w.2)
    else
      match destPreHandler app m with
      | none => (false, g.2 ++ w.2)
      | some h => (h.onPreTranslate m, g.2 ++ w.2 ++ [h.id])

/-- The externally visible work one iteration of the main message loop does
after the pre-translate offer. -/
inductive DispatchEvent where
  | translated (message : Nat)
  | dispatched (message : Nat)
  | postDispatched (message : Nat)
  deriving Repr, DecidableEq

/-- One iteration of the `for win.GetMessage(...)` loop in
`runMainMessageLoop` (application.go): if `runPreTranslateHandler` handles
the message, `continue` — no translation, no dispatch; otherwise
`TranslateMessage`, `DispatchMessage`, then `runPostDispatchHandler`. -/
def processLoopIteration (app : MsgLoopApp) (m : Msg) : List DispatchEvent :=
  if (runPreTranslateHandler app m).1 then []
  else
    [.translated m.message, .dispatched m.message] ++
      (match getMsgWindow app m with
       | some wnd => if wnd.hasPostDispatch then [.postDispatched m.message]
         else []
       | none => [])

/-- `Application.runMainMessageLoop` (application.go): panics with
"Unexpected nesting of top-level message loop" when `activeMessageLoops` is
nonzero at entry; otherwise increments the counter (restored by a defer),
pumps every queued message through `processLoopIteration` until
`GetMessage` returns 0 at `WM_QUIT`, and returns the quit message's
`WParam`.  `msgs` are the messages the loop will retrieve before the quit
message, `quitWParam` the quit message's `WParam`. -/
def runMainMessageLoop (app : MsgLoopApp) (msgs : List Msg)
    (quitWParam : Int) : Except String (Int × List DispatchEvent) :=
  if app.activeMessageLoops ≠ 0 then
    .error "Unexpected nesting of top-level message loop"
  else
    .ok (quitWParam, msgs.flatMap (processLoopIteration app))

/-- `Application.Run` (application.go): asserts the UI thread, then runs
`runMainMessageLoop` (the post-loop `waitGroup.Wait()` is shutdown work
that produces no loop events). -/
def appRun (isUIThread : Bool) (app : MsgLoopApp) (msgs : List Msg)
    (quitWParam : Int) : Except String (Int × List DispatchEvent) :=
  if !isUIThread then .error "walk: not the UI thread"
  else runMainMessageLoop app msgs quitWParam

theorem runHandlerChain_append (A B : List Handler) (m : Msg) :
    runHandlerChain (A ++ B) m =
      if (runHandlerChain A m).1 then runHandlerChain A m
      else ((runHandlerChain B m).1,
        (runHandlerChain A m).2 ++ (runHandlerChain B m).2) := by
  induction A with
  | nil => simp [runHandlerChain]
  | cons h t ih =>
      by_cases hh : h.onPreTranslate m
      · simp [runHandlerChain, hh]
      · by_cases ht : (runHandlerChain t m).1
        · simp [runHandlerChain, hh, ih, ht]
        · simp [runHandlerChain, hh, ih, ht]

/-- C2 (amended): the pre-translate phase is equivalent to running one
chain consisting of the global handlers (first, in registration order),
then **every** handler registered in the per-window map — not only the one
keyed to the message's destination — and finally the handler implemented by
the destination window itself, if any; the first handler returning
`handled` short-circuits the chain, and a handled message is neither
translated nor dispatched. -/
theorem preTranslate_globals_then_perWindow_then_dest (app : MsgLoopApp)
    (m : Msg) :
    runPreTranslateHandler app m =
        runHandlerChain (app.globalPreTranslateHandlers ++
          (app.perWindowPreTranslateHandlers.map Prod.snd ++
            (destPreHandler app m).toList)) m ∧
      ((runPreTranslateHandler app m).1 = true →
        processLoopIteration app m = []) := by
  constructor
  · rw [runHandlerChain_append, runHandlerChain_append]
    unfold runPreTranslateHandler
    by_cases hg : (runHandlerChain app.globalPreTranslateHandlers m).1
    · simp [hg]
    · by_cases hw : (runHandlerChain
          (app.perWindowPreTranslateHandlers.map Prod.snd) m).1
      · simp [hg, hw]
      · cases hd : destPreHandler app m with
        | none => simp [hg, hw, hd, runHandlerChain]
        | some h =>
            by_cases hh : h.onPreTranslate m <;>
              simp [hg, hw, hd, runHandlerChain, hh]
  · intro hhandled
    simp [processLoopIteration, hhandled]

/-- Concrete refutation data for C2 as originally stated: one per-window
handler keyed to HWND 2, no global handlers, no windows. -/
def cexHandler : Handler := ⟨2, fun _ => false⟩

def cexApp : MsgLoopApp := ⟨[], [(2, cexHandler)], [], 0⟩

def cexMsg : Msg := ⟨1, 0⟩

/-- Counterexample to C2 as stated: for a message destined to HWND 1, the
pre-translate phase invokes the handler keyed to HWND 2 (the invoked-id
trace is exactly `[2]`), so the per-target chain that runs is *not* only
the one keyed to the message's destination. -/
theorem preTranslate_runs_nonDest_perWindow_handler :
    (runPreTranslateHandler cexApp cexMsg).2 = [2] ∧ cexMsg.hwnd = 1 :=
  ⟨rfl, rfl⟩

/-- C8: entering the top-level message loop via `Application.Run` on the UI
thread raises the "Unexpected nesting of top-level message loop" panic —
not a recoverable error result — if and only if the active-message-loop
counter is nonzero at entry; top-level loops never nest. -/
theorem run_panics_iff_loop_active (app : MsgLoopApp) (msgs : List Msg)
    (quitWParam : Int) :
    (∃ e, appRun true app msgs quitWParam = .error e) ↔
      app.activeMessageLoops ≠ 0 := by
  constructor
  · intro ⟨e, he⟩
    by_contra h0
    simp [appRun, runMainMessageLoop, h0] at he
  · intro h0
    exact ⟨"Unexpected nesting of top-level message loop",
      by simp [appRun, runMainMessageLoop, h0]⟩

/-! ### The layout-result side of the bridge:
`Application.synchronizeLayout` and `Application.runSyncLayout`
(application.go).

`app.layoutResultsByForm` is a Go map `map[Form]*formLayoutResult`
protected by `app.syncLayoutMutex`; it is embedded as an association list
(order standing for Go's unspecified map iteration order) with the Go
map-assignment semantics of replace-or-append.  A `formLayoutResult` (its
struct is reconstructed from its uses in application.go: `lr.form`,
`lr.results.results`, `lr.results.completionFuncs`, `lr.stopwatch`)
carries the target form's identity, the computed layout data (abstracted
to a number) and the completion callback ids.  `runSyncLayout` emits an
event trace: one `applyResult` per applied result and one `runCompletion`
per invoked completion callback. -/

structure FormLayoutResult where
  form : Nat
  /-- `lr.results.results`: the computed positions and sizes. -/
  payload : Nat
  /-- `lr.results.completionFuncs`, as callback ids. -/
  completionFuncs : List Nat
  deriving Repr, DecidableEq

/-- First value stored under key `k`, if any (association-list lookup). -/
def findResult (k : Nat) : List (Nat × FormLayoutResult) →
    Option FormLayoutResult
  | [] => none
  | p :: t => if p.1 = k then some p.2 else findResult k t

/-- Go map assignment `m[k] = v` on an association list: replace the entry
for `k` when present, otherwise append it. -/
def mapInsert (m : List (Nat × FormLayoutResult)) (k : Nat)
    (v : FormLayoutResult) : List (Nat × FormLayoutResult) :=
  if (findResult k m).isSome then
    m.map fun q => if q.1 = k then (k, v) else q
  else m ++ [(k, v)]

structure LayoutBridgeState where
  /-- `app.layoutResultsByForm`. -/
  layoutResultsByForm : List (Nat × FormLayoutResult)
  /-- Number of `syncLayoutMsg` messages posted and not yet observed. -/
  postedLayoutMsgs : Nat
  deriving Repr, DecidableEq

/-- `Application.synchronizeLayout` (application.go): under the mutex,
`app.layoutResultsByForm[result.form] = result`; then post one
`syncLayoutMsg`. -/
def synchronizeLayout (s : LayoutBridgeState) (r : FormLayoutResult) :
    LayoutBridgeState :=
  { s with
    layoutResultsByForm := mapInsert s.layoutResultsByForm r.form r
    postedLayoutMsgs := s.postedLayoutMsgs + 1 }

/-- The state before any `synchronizeLayout` call. -/
def initLayoutBridgeState : LayoutBridgeState := ⟨[], 0⟩

inductive LayoutEvent where
  /-- `applyLayoutResults(lr.results.results, lr.stopwatch)` for the result
  of `form`. -/
  | applyResult (form payload : Nat)
  /-- One completion callback of the result of `form` was invoked. -/
  | runCompletion (form fn : Nat)
  deriving Repr, DecidableEq

def LayoutEvent.isApply : LayoutEvent → Bool
  | .applyResult _ _ => true
  | .runCompletion _ _ => false

/-- `Application.runSyncLayout` (application.go): under the mutex, collect
all queued results and clear the map; then apply every collected result;
then — only after all results have been applied — invoke every result's
completion callbacks. -/
def runSyncLayout (s : LayoutBridgeState) :
    LayoutBridgeState × List LayoutEvent :=
  let layoutResults := s.layoutResultsByForm.map Prod.snd
  ({ s with
      layoutResultsByForm := []
      postedLayoutMsgs := s.postedLayoutMsgs - 1 },
    (layoutResults.map fun lr => .applyResult lr.form lr.payload) ++
      layoutResults.flatMap fun lr =>
        lr.completionFuncs.map fun fn => .runCompletion lr.form fn)

/-- C3: when the owner thread drains the layout-ready message, the emitted
trace applies every currently queued result (the applications are exactly
one `applyResult` per queued map entry, and the map is left empty), and
every `applyResult` event precedes every `runCompletion` event: completion
callbacks are never interleaved with result application. -/
theorem runSyncLayout_applies_all_before_completions
    (s : LayoutBridgeState) (i j f p g q : Nat)
    (hi : (runSyncLayout s).2[i]? = some (.applyResult f p))
    (hj : (runSyncLayout s).2[j]? = some (.runCompletion g q)) :
    i < j ∧
      (runSyncLayout s).2.filter LayoutEvent.isApply =
        (s.layoutResultsByForm.map fun pr =>
          .applyResult pr.2.form pr.2.payload) ∧
      (runSyncLayout s).1.layoutResultsByForm = [] := by
  have hA : ∀ e ∈ (s.layoutResultsByForm.map Prod.snd).map
      (fun lr => LayoutEvent.applyResult lr.form lr.payload),
      e.isApply = true := by
    intro e he
    obtain ⟨lr, _, rfl⟩ := List.mem_map.mp he
    rfl
  have hB : ∀ e ∈ (s.layoutResultsByForm.map Prod.snd).flatMap
      (fun lr => lr.completionFuncs.map
        fun fn => LayoutEvent.runCompletion lr.form fn),
      e.isApply = false := by
    intro e he
    obtain ⟨lr, _, hin⟩ := List.mem_flatMap.mp he
    obtain ⟨fn, _, rfl⟩ := List.mem_map.mp hin
    rfl
  refine ⟨?_, ?_, rfl⟩
  · have hiA : i < ((s.layoutResultsByForm.map Prod.snd).map
        (fun lr => LayoutEvent.applyResult lr.form lr.payload)).length := by
      by_contra hge
      rw [show (runSyncLayout s).2 = _ ++ _ from rfl,
        List.getElem?_append_right (Nat.le_of_not_lt hge)] at hi
      have := hB _ (List.getElem?_mem hi)
      simp [LayoutEvent.isApply] at this
    have hjA : ¬ j < ((s.layoutResultsByForm.map Prod.snd).map
        (fun lr => LayoutEvent.applyResult lr.form lr.payload)).length := by
      intro hlt
      rw [show (runSyncLayout s).2 = _ ++ _ from rfl,
        List.getElem?_append_left hlt] at hj
      have := hA _ (List.getElem?_mem hj)
      simp [LayoutEvent.isApply] at this
    omega
  · rw [show (runSyncLayout s).2 = _ ++ _ from rfl, List.filter_append]
    rw [List.filter_eq_self.mpr hA,
      List.filter_eq_nil_iff.mpr (fun e he h => by simp [hB e he] at h)]
    simp [List.map_map, Function.comp]

/-- Concrete input for the C3 witness: two queued results. -/
def witLayoutState : LayoutBridgeState :=
  ⟨[(1, ⟨1, 10, [100]⟩), (2, ⟨2, 20, [200]⟩)], 2⟩

/-- Witness for C3 at a concrete input: with results queued for forms 1 and
2, the first apply event (index 0) precedes the first completion event
(index 2), the applies are exactly the two queued results and the map is
drained. -/
theorem runSyncLayout_applies_all_before_completions_witness :
    (0 : Nat) < 2 ∧
      (runSyncLayout witLayoutState).2.filter LayoutEvent.isApply =
        (witLayoutState.layoutResultsByForm.map fun pr =>
          .applyResult pr.2.form pr.2.payload) ∧
      (runSyncLayout witLayoutState).1.layoutResultsByForm = [] :=
  runSyncLayout_applies_all_before_completions witLayoutState 0 2 1 10 1 100
    rfl rfl

/-- The last element of `rs` whose form is `f`, if any: the result the spec
says the drained map must hold for `f`. -/
def lastSubmitted (f : Nat) : List FormLayoutResult → Option FormLayoutResult
  | [] => none
  | r :: rs =>
      match lastSubmitted f rs with
      | some x => some x
      | none => if r.form = f then some r else none

theorem findResult_map_ne (m : List (Nat × FormLayoutResult))
    (k : Nat) (v : FormLayoutResult) (k1 : Nat) (h : k1 ≠ k) :
    findResult k1 (m.map fun q => if q.1 = k then (k, v) else q) =
      findResult k1 m := by
  induction m with
  | nil => rfl
  | cons p t ih =>
      by_cases hp : p.1 = k
      · have hp1 : ¬ p.1 = k1 := by rw [hp]; exact fun hh => h hh.symm
        have hk1 : ¬ k = k1 := fun hh => h hh.symm
        simp [findResult, hp, hp1, hk1, ih]
      · simp only [List.map_cons, if_neg hp]
        by_cases hp1 : p.1 = k1
        · simp [findResult, hp1]
        · simp [findResult, hp1, ih]

theorem findResult_map_self (m : List (Nat × FormLayoutResult))
    (k : Nat) (v : FormLayoutResult)
    (h : (findResult k m).isSome) :
    findResult k (m.map fun q => if q.1 = k then (k, v) else q) =
      some v := by
  induction m with
  | nil => simp [findResult] at h
  | cons p t ih =>
      by_cases hp : p.1 = k
      · simp [findResult, hp]
      · have h2 : (findResult k t).isSome := by
          simpa [findResult, hp] using h
        simp [findResult, hp, ih h2]

theorem findResult_append (m1 m2 : List (Nat × FormLayoutResult))
    (k : Nat) :
    findResult k (m1 ++ m2) =
      match findResult k m1 with
      | some v => some v
      | none => findResult k m2 := by
  induction m1 with
  | nil => simp [findResult]
  | cons p t ih =>
      by_cases hp : p.1 = k
      · simp [findResult, hp]
      · simp [findResult, hp, ih]

theorem findResult_mapInsert (m : List (Nat × FormLayoutResult))
    (k : Nat) (v : FormLayoutResult) (k1 : Nat) :
    findResult k1 (mapInsert m k v) =
      if k1 = k then some v else findResult k1 m := by
  unfold mapInsert
  by_cases hpres : (findResult k m).isSome
  · rw [if_pos hpres]
    by_cases hk : k1 = k
    · subst hk
      rw [if_pos rfl, findResult_map_self m k1 v hpres]
    · rw [if_neg hk, findResult_map_ne m k v k1 hk]
  · rw [if_neg hpres, findResult_append]
    have hnone : findResult k m = none :=
      Option.not_isSome_iff_eq_none.mp hpres
    by_cases hk : k1 = k
    · subst hk
      rw [hnone, if_pos rfl]
      simp [findResult]
    · rw [if_neg hk]
      cases hm : findResult k1 m with
      | some v1 => rfl
      | none =>
          have hk2 : ¬ k = k1 := fun hh => hk hh.symm
          simp [findResult, hk2]

theorem foldl_synchronizeLayout_map (rs : List FormLayoutResult)
    (s : LayoutBridgeState) :
    (rs.foldl synchronizeLayout s).layoutResultsByForm =
      rs.foldl (fun m r => mapInsert m r.form r) s.layoutResultsByForm := by
  induction rs generalizing s with
  | nil => rfl
  | cons r t ih => rw [List.foldl_cons, List.foldl_cons, ih]; rfl

theorem findResult_foldl_mapInsert (rs : List FormLayoutResult)
    (m : List (Nat × FormLayoutResult)) (f : Nat) :
    findResult f (rs.foldl (fun m r => mapInsert m r.form r) m) =
      match lastSubmitted f rs with
      | some x => some x
      | none => findResult f m := by
  induction rs generalizing m with
  | nil => rfl
  | cons r t ih =>
      rw [List.foldl_cons, ih, lastSubmitted]
      cases lastSubmitted f t with
      | some x => rfl
      | none =>
          rw [findResult_mapInsert]
          by_cases hf : r.form = f
          · rw [if_pos hf, if_pos hf.symm]
          · rw [if_neg hf, if_neg (fun h => hf h.symm)]

theorem findResult_none_not_mem_keys (m : List (Nat × FormLayoutResult))
    (k : Nat) (h : findResult k m = none) : k ∉ m.map Prod.fst := by
  induction m with
  | nil => simp
  | cons p t ih =>
      simp only [findResult] at h
      by_cases hp : p.1 = k
      · rw [if_pos hp] at h; cases h
      · rw [if_neg hp] at h
        simp only [List.map_cons, List.mem_cons]
        rintro (hk | hk)
        · exact hp hk.symm
        · exact ih h hk

theorem mapInsert_keys_nodup (m : List (Nat × FormLayoutResult))
    (k : Nat) (v : FormLayoutResult)
    (h : (m.map Prod.fst).Nodup) :
    ((mapInsert m k v).map Prod.fst).Nodup := by
  unfold mapInsert
  by_cases hpres : (findResult k m).isSome
  · rw [if_pos hpres]
    have hkeys : (m.map fun q => if q.1 = k then (k, v) else q).map
        Prod.fst = m.map Prod.fst := by
      rw [List.map_map]
      refine List.map_congr_left ?_
      intro q _
      by_cases hq : q.1 = k <;> simp [hq, Function.comp]
    rw [hkeys]; exact h
  · rw [if_neg hpres, List.map_append]
    have hnone : findResult k m = none :=
      Option.not_isSome_iff_eq_none.mp hpres
    simp only [List.map_cons, List.map_nil]
    exact List.Nodup.append h (List.nodup_singleton k)
      (by simpa [List.disjoint_singleton] using
        findResult_none_not_mem_keys m k hnone)

theorem foldl_mapInsert_keys_nodup (rs : List FormLayoutResult)
    (m : List (Nat × FormLayoutResult)) (h : (m.map Prod.fst).Nodup) :
    (((rs.foldl (fun m r => mapInsert m r.form r) m)).map Prod.fst).Nodup := by
  induction rs generalizing m with
  | nil => exact h
  | cons r t ih =>
      rw [List.foldl_cons]
      exact ih _ (mapInsert_keys_nodup m r.form r h)

/-- C4: for every sequence of `synchronizeLayout` calls starting from the
empty pending map, the map holds at most one unconsumed result per form
(its keys are pairwise distinct), and each form's entry is exactly the most
recently submitted result for that form — a newer result replaces the older
unconsumed one, last-write-wins. -/
theorem synchronizeLayout_lastWriteWins (rs : List FormLayoutResult)
    (f : Nat) :
    (((rs.foldl synchronizeLayout
        initLayoutBridgeState).layoutResultsByForm).map Prod.fst).Nodup ∧
      findResult f (rs.foldl synchronizeLayout
          initLayoutBridgeState).layoutResultsByForm =
        lastSubmitted f rs := by
  rw [foldl_synchronizeLayout_map]
  refine ⟨foldl_mapInsert_keys_nodup rs _ (by simp [initLayoutBridgeState]),
    ?_⟩
  rw [findResult_foldl_mapInsert]
  cases lastSubmitted f rs with
  | some x => rfl
  | none => rfl

/-! ### Layout during interactive resize: `FormBase.startLayout` and the
`WM_WINDOWPOSCHANGED` arm of `FormBase.WndProc` (form.go).

The owner-side code is embedded from form.go.  `startLayout` refuses to
run when the layout performer channel is nil or when the form is inside a
sizing loop without the `startingLayoutViaSizingLoop` override; otherwise
it sends a request (carrying the form's proposed size as the geometry
snapshot) on the `performLayout` channel and returns true.  In the
`WM_WINDOWPOSCHANGED` arm, when the form is in the interactive sizing loop
the owner thread sets the override, starts the layout, resets the override
and then **blocks** receiving on the dedicated `fb.layoutResults` channel,
applying the received result synchronously via `applyLayoutResults`. -/

structure FormState where
  /-- `fb.performLayout != nil`: the layout performer is running. -/
  hasPerformLayout : Bool
  /-- `fb.inSizingLoop`: between `WM_ENTERSIZEMOVE` and `WM_EXITSIZEMOVE`. -/
  inSizingLoop : Bool
  /-- `fb.startingLayoutViaSizingLoop`. -/
  startingLayoutViaSizingLoop : Bool
  /-- `fb.Layout() != nil`. -/
  hasLayout : Bool
  /-- `fb.Suspended()`. -/
  suspended : Bool
  /-- `fb.proposedSize`, in native pixels. -/
  proposedSize : Nat × Nat
  deriving Repr, DecidableEq

/-- Whether `FormBase.startLayout` (form.go) starts a layout pass: it
returns false when `fb.performLayout == nil` or when
`fb.inSizingLoop && !fb.startingLayoutViaSizingLoop`; otherwise it sends a
`layoutStartInfo` on `fb.performLayout` and returns true. -/
def startLayout (fb : FormState) : Bool :=
  fb.hasPerformLayout &&
    !(fb.inSizingLoop && !fb.startingLayoutViaSizingLoop)

/-- Owner-thread events observable in the `WM_WINDOWPOSCHANGED` arm. -/
inductive ResizeEvent where
  /-- A `layoutStartInfo` with geometry snapshot `size` was sent on
  `fb.performLayout`. -/
  | requestedLayout (size : Nat × Nat)
  /-- The owner thread blocked on `results := <-fb.layoutResults` and
  applied the received result synchronously via `applyLayoutResults`. -/
  | blockedOnRendezvousAndApplied
  deriving Repr, DecidableEq

/-- The `WM_WINDOWPOSCHANGED` arm of `FormBase.WndProc` (form.go):
on `SWP_SHOWWINDOW`, start a layout; unless `SWP_NOSIZE`, no layout or
suspended, record the new proposed size, set the sizing-loop override when
inside the sizing loop, start the layout, and when inside the sizing loop
reset the override and synchronously receive and apply the result. -/
def wndProcWindowPosChanged (fb : FormState) (swpShowWindow swpNoSize : Bool)
    (cx cy : Nat) : FormState × List ResizeEvent :=
  let ev0 : List ResizeEvent :=
    if swpShowWindow && startLayout fb then [.requestedLayout fb.proposedSize]
    else []
  if swpNoSize || !fb.hasLayout || fb.suspended then (fb, ev0)
  else
    let fb1 : FormState := { fb with proposedSize := (cx, cy) }
    let fb2 : FormState :=
      if fb1.inSizingLoop then { fb1 with startingLayoutViaSizingLoop := true }
      else fb1
    if startLayout fb2 then
      if fb2.inSizingLoop then
        ({ fb2 with startingLayoutViaSizingLoop := false },
          ev0 ++ [.requestedLayout fb2.proposedSize,
            .blockedOnRendezvousAndApplied])
      else (fb2, ev0 ++ [.requestedLayout fb2.proposedSize])
    else (fb2, ev0)

/-- Where the layout worker delivers a finished result. -/
inductive LayoutDelivery where
  /-- Sent on the dedicated `fb.layoutResults` rendezvous channel, on which
  the owner thread blocks. -/
  | syncRendezvous
  /-- Handed to the Bridge's batched layout-result path
  (`App().synchronizeLayout`). -/
  | asyncBridge
  deriving Repr, DecidableEq

/-- Modelled from the spec: the layout performer goroutine
(`startLayoutPerformer`, whose source file is not part of this corpus; only
its callers in form.go are) finishes computing and, "if the owner thread is
in an interactive resize (actively tracking pointer-driven resize), the
result is delivered synchronously (owner blocks on a dedicated rendezvous)
...; otherwise it is delivered asynchronously via the Bridge's batched
layout-result path". -/
def performerDelivery (ownerInInteractiveResize : Bool) : LayoutDelivery :=
  if ownerInInteractiveResize then .syncRendezvous else .asyncBridge

/-- C9: starting from the steady state in which the sizing-loop override
flag is clear, if the owner thread is inside the interactive sizing loop,
then every layout request the `WM_WINDOWPOSCHANGED` handler sends is
immediately followed by the owner blocking on the dedicated layout-result
rendezvous and applying the result synchronously before the handler
continues, and the worker delivers to the rendezvous; if it is not in an
interactive resize, the owner never blocks on the rendezvous in this
handler and the worker instead delivers through the Bridge's batched
layout-result path. -/
theorem resize_layout_delivery (fb : FormState) (sw ns : Bool)
    (cx cy : Nat) (hsl : fb.startingLayoutViaSizingLoop = false) :
    (fb.inSizingLoop = true →
      (∀ i sz,
        ((wndProcWindowPosChanged fb sw ns cx cy).2)[i]? =
            some (.requestedLayout sz) →
          ((wndProcWindowPosChanged fb sw ns cx cy).2)[i + 1]? =
            some .blockedOnRendezvousAndApplied) ∧
      performerDelivery fb.inSizingLoop = .syncRendezvous) ∧
    (fb.inSizingLoop = false →
      .blockedOnRendezvousAndApplied ∉
          (wndProcWindowPosChanged fb sw ns cx cy).2 ∧
      performerDelivery fb.inSizingLoop = .asyncBridge) := by
  constructor
  · intro hsz
    have hstart0 : startLayout fb = false := by
      simp [startLayout, hsz, hsl]
    refine ⟨?_, by simp [performerDelivery, hsz]⟩
    intro i sz hreq
    by_cases hbr : (ns || !fb.hasLayout || fb.suspended) = true
    · rw [show (wndProcWindowPosChanged fb sw ns cx cy).2 = [] from by
        simp [wndProcWindowPosChanged, hstart0, hbr]] at hreq
      simp at hreq
    · by_cases hperf : fb.hasPerformLayout = true
      · have hev : (wndProcWindowPosChanged fb sw ns cx cy).2 =
            [.requestedLayout (cx, cy), .blockedOnRendezvousAndApplied] := by
          simp [wndProcWindowPosChanged, hstart0, hbr, hsz, startLayout,
            hperf, hsl]
        rw [hev] at hreq
        rw [hev]
        rcases i with _ | _ | i
        · rfl
        · simp at hreq
        · simp at hreq
      · rw [show (wndProcWindowPosChanged fb sw ns cx cy).2 = [] from by
          simp [wndProcWindowPosChanged, hstart0, hbr, hsz, startLayout,
            hperf, hsl]] at hreq
        simp at hreq
  · intro hsz
    refine ⟨?_, by simp [performerDelivery, hsz]⟩
    by_cases hbr : (ns || !fb.hasLayout || fb.suspended) = true <;>
      by_cases hss : (sw && startLayout fb) = true <;>
      by_cases hperf : fb.hasPerformLayout = true <;>
      simp [wndProcWindowPosChanged, startLayout, hbr, hss, hperf, hsz]

/-- Concrete input for the C9 witness: a live layout performer, inside the
sizing loop, override clear, a layout installed, not suspended. -/
def witFormState : FormState := ⟨true, true, false, true, false, (0, 0)⟩

/-- Witness for C9 at a concrete input: a `WM_WINDOWPOSCHANGED` with a size
change while in the sizing loop sends the layout request (event index 0)
and immediately blocks on the rendezvous and applies synchronously (event
index 1). -/
theorem resize_layout_delivery_witness :
    ((wndProcWindowPosChanged witFormState false false 5 7).2)[0 + 1]? =
      some .blockedOnRendezvousAndApplied :=
  ((resize_layout_delivery witFormState false false 5 7 rfl).1 rfl).1 0
    (5, 7) rfl

end Walk
